import Mathlib

/-!
Shallow embedding of the slot-filling orchestration core of the
performance-agent-api repository (src/app/orchestrator.py, src/app/routes.py).

Modelling conventions:
* Python values produced by `json.loads` are modelled by the inductive
  `Json`; Python dicts keep insertion order, modelled as association lists.
* Python string operations (`in`, `.lower()`, `.strip()`, `.startswith()`,
  `.capitalize()`, `.split()`, `.replace()`) are implemented here over
  `List Char` so that every concrete run evaluates inside the kernel.
* The completion capability (`call_groq`), the JSON library (`json.loads`),
  MongoDB and the downstream HTTP call are external effects; they are
  modelled by a `World` record of oracle outcomes for the single turn under
  study.  `Except.error` for an oracle call models the call raising an
  exception, `Except.ok t` models it returning the text `t`.  `World.parse`
  models `json.loads` (the error carries the exception text).
* A Python function that can let an exception escape to its caller returns
  `Option`; `none` models the uncaught exception.
-/

/-- JSON values as produced by `json.loads`. -/
inductive Json where
  | null : Json
  | bool (b : Bool) : Json
  | num (n : Int) : Json
  | str (s : String) : Json
  | arr (xs : List Json) : Json
  | obj (kvs : List (String × Json)) : Json

mutual
/-- Structural equality of JSON values (Python `==` on such values). -/
def jsonBeq : Json → Json → Bool
  | .null, .null => true
  | .bool a, .bool b => a == b
  | .num a, .num b => a == b
  | .str a, .str b => a == b
  | .arr a, .arr b => jsonBeqList a b
  | .obj a, .obj b => jsonBeqObj a b
  | _, _ => false

def jsonBeqList : List Json → List Json → Bool
  | [], [] => true
  | x :: xs, y :: ys => jsonBeq x y && jsonBeqList xs ys
  | _, _ => false

def jsonBeqObj : List (String × Json) → List (String × Json) → Bool
  | [], [] => true
  | kv :: kvs, kv' :: kvs' => kv.1 == kv'.1 && jsonBeq kv.2 kv'.2 && jsonBeqObj kvs kvs'
  | _, _ => false
end

/-- Python truthiness (`if v:`) for JSON-derived values. -/
def pyTruthy : Json → Bool
  | .null => false
  | .bool b => b
  | .num n => n != 0
  | .str s => !s.isEmpty
  | .arr xs => !xs.isEmpty
  | .obj kvs => !kvs.isEmpty

/-- Is the value a Python str? -/
def isJStr : Json → Bool
  | .str _ => true
  | _ => false

/-- Python lowercasing of one character (ASCII; the source only lowers
ASCII-plus-emoji message text and parameter keys). -/
def chrLower (c : Char) : Char :=
  if 65 ≤ c.toNat && c.toNat ≤ 90 then Char.ofNat (c.toNat + 32) else c

/-- Python uppercasing of one character (ASCII). -/
def chrUpper (c : Char) : Char :=
  if 97 ≤ c.toNat && c.toNat ≤ 122 then Char.ofNat (c.toNat - 32) else c

/-- Python `s.lower()`. -/
def pyLower (s : String) : String := (s.data.map chrLower).asString

/-- Python `s.capitalize()`: first character uppercased, the rest lowered. -/
def pyCapitalize (s : String) : String :=
  match s.data with
  | [] => ""
  | c :: rest => (chrUpper c :: rest.map chrLower).asString

/-- Default whitespace for Python `str.strip` / `\s`. -/
def isPySpace (c : Char) : Bool :=
  c.toNat == 32 || (9 ≤ c.toNat && c.toNat ≤ 13)

/-- Python `s.strip()`. -/
def pyStrip (s : String) : String :=
  ((s.data.dropWhile isPySpace).reverse.dropWhile isPySpace).reverse.asString

/-- Does the character list start with the given pattern? -/
def listStartsWith : List Char → List Char → Bool
  | _, [] => true
  | [], _ :: _ => false
  | c :: cs, p :: ps => c == p && listStartsWith cs ps

/-- Occurrence of `needle` anywhere in `hay` (character lists). -/
def listContainsSub (hay needle : List Char) : Bool :=
  listStartsWith hay needle ||
    match hay with
    | [] => false
    | _ :: t => listContainsSub t needle

/-- Python `needle in hay` on strings: substring test, true for the empty
needle. -/
def pyIn (needle hay : String) : Bool := listContainsSub hay.data needle.data

/-- Python `s.startswith(p)`. -/
def pyStartsWith (s p : String) : Bool := listStartsWith s.data p.data

/-- Python `s.endswith(p)`. -/
def pyEndsWith (s p : String) : Bool :=
  listStartsWith s.data.reverse p.data.reverse

/-- Python `s.replace("_", " ")` (single-character pattern, as in the
source). -/
def replaceUnderscores (s : String) : String :=
  (s.data.map (fun c => if c == '_' then ' ' else c)).asString

/-- First component of Python `s.split("_")`. -/
def splitUnderscoreHead (s : String) : String :=
  (s.data.takeWhile (fun c => c != '_')).asString

/-- Python `sep.join(parts)`. -/
def joinSep (sep : String) (parts : List String) : String :=
  match parts with
  | [] => ""
  | p :: rest => rest.foldl (fun acc x => acc ++ sep ++ x) p

/-- Display of a value inside an f-string.  Exact for the `str`, `num`,
`bool` and `None` cases; for containers (never exercised by the claims) a
plain rendering stands in for the Python repr. -/
def pyStr : Json → String
  | .str s => s
  | .num n => toString n
  | .bool true => "True"
  | .bool false => "False"
  | .null => "None"
  | .arr _ => "[...]"
  | .obj _ => "\x7b...\x7d"

mutual
/-- Plain textual rendering standing in for `json.dumps(result, indent=2)`;
the claims never inspect the dumped text, only the message prefix. -/
def jsonDumps : Json → String
  | .null => "null"
  | .bool true => "true"
  | .bool false => "false"
  | .num n => toString n
  | .str s => "\"" ++ s ++ "\""
  | .arr xs => "[" ++ joinSep ", " (jsonDumpsList xs) ++ "]"
  | .obj kvs => "\x7b" ++ joinSep ", " (jsonDumpsObj kvs) ++ "\x7d"

def jsonDumpsList : List Json → List String
  | [] => []
  | x :: xs => jsonDumps x :: jsonDumpsList xs

def jsonDumpsObj : List (String × Json) → List String
  | [] => []
  | kv :: kvs => ("\"" ++ kv.1 ++ "\": " ++ jsonDumps kv.2) :: jsonDumpsObj kvs
end

/-- `d.get(k, dflt)` on a dict modelled as an association list; for a
non-dict the call sites below only use this under a dict guard. -/
def jgetD (j : Json) (k : String) (dflt : Json) : Json :=
  match j with
  | .obj kvs =>
    match kvs.find? (fun kv => kv.1 == k) with
    | some kv => kv.2
    | none => dflt
  | _ => dflt

/-- `d.get(k)` (default `None`). -/
def jget (j : Json) (k : String) : Json := jgetD j k .null

/-- `re.sub(r"^(3 backticks)(?:json)?|(3 backticks)$", "", s)` on an
already-stripped string: remove one leading fence (preferring the longer
`json` form, as the regex alternation does) and one trailing fence. -/
def stripFences (s : String) : String :=
  let d1 := if listStartsWith s.data "```json".data then s.data.drop 7
            else if listStartsWith s.data "```".data then s.data.drop 3
            else s.data
  if listStartsWith d1.reverse "```".data.reverse then
    (d1.reverse.drop 3).reverse.asString
  else d1.asString

/-- One entry of an endpoint's `parameters` list (`p["name"]`,
`p.get("required")`). -/
structure PSpec where
  name : String
  required : Bool := false

/-- An endpoint descriptor dict from the catalogue.  `name`/`route` are
optional because the source reads them with `api.get("name", "")` /
`api.get("route", "")`. -/
structure Api where
  name : Option String := none
  route : Option String := none
  keywords : List String := []
  parameters : List PSpec := []
  validation_rules : List (String × String) := []

/-- One `{role, content}` history turn. -/
structure Msg where
  role : String
  content : String

/-- `ConversationState` (orchestrator.py lines 58-65): `api_specs` holds the
`"apis"` list loaded from the store; `params` is the slot dict. -/
structure ConversationState where
  api_specs : List Api := []
  current_endpoint : Option Api := none
  params : List (String × Json) := []
  history : List Msg := []

/-- The reference-name document held by the catalogue store
(`doc.get("portfolio_names", [])` / `doc.get("benchmark_names", [])`). -/
structure MongoDoc where
  portfolio_names : List String := []
  benchmark_names : List String := []

/-- Oracle outcomes for the external effects of one turn.  Each completion
call site of the source has its own outcome field; `resolveOut` is keyed by
the `name_type` argument of `check_name_in_db`. -/
structure World where
  parse : String → Except String Json := fun _ => .error "Expecting value"
  extractOut : Except String String := .ok ""
  mergeOut : Except String String := .ok ""
  validateOut : Except String String := .ok ""
  resolveOut : String → Except String String := fun _ => .ok ""
  invokeOut : Except String Json := .error "connection error"
  mongoOk : Bool := true
  doc : Option MongoDoc := none

/-- Python `d[k] = v` on an ordered dict: overwrite in place if the key is
present, else append. -/
def dictSet (d : List (String × Json)) (k : String) (v : Json) :
    List (String × Json) :=
  if d.any (fun kv => kv.1 == k) then
    d.map (fun kv => if kv.1 == k then (k, v) else kv)
  else d ++ [(k, v)]

/-- Python `d.update(entries)`. -/
def dictUpdate (d : List (String × Json)) (entries : List (String × Json)) :
    List (String × Json) :=
  entries.foldl (fun acc kv => dictSet acc kv.1 kv.2) d

/-- Python `d[k]` lookup (call sites guard on presence). -/
def lookupJ (d : List (String × Json)) (k : String) : Json :=
  match d.find? (fun kv => kv.1 == k) with
  | some kv => kv.2
  | none => .null

/-- Presence test `k in d`. -/
def dictHas (d : List (String × Json)) (k : String) : Bool :=
  d.any (fun kv => kv.1 == k)

/-- Python `\w` (ASCII word character, as used by the correction regex on
the ASCII inputs of this system). -/
def isWordChar (c : Char) : Bool :=
  (48 ≤ c.toNat && c.toNat ≤ 57) || (65 ≤ c.toNat && c.toNat ≤ 90) ||
    (97 ≤ c.toNat && c.toNat ≤ 122) || c == '_'

/-- Character class `[\w\-]`. -/
def isValChar (c : Char) : Bool := isWordChar c || c == '-'

/-- `re.findall(r"(\w+)\s*=\s*([\w\-]+)", text)`: scan left to right; at
each position try to match a maximal word run, optional spaces, `=`,
optional spaces, then a maximal nonempty `[\w\-]` run; on success continue
after the match, on failure advance one character.  (Since `\w`, `\s` and
`=` are disjoint classes the greedy match never backtracks, so this scan
is exactly the Python regex search.)  The `fuel` argument makes the
recursion structural; every recursive call strictly shrinks the character
list, so any `fuel > length` computes the scan fully
(`findKVAux_fuel` below). -/
def findKVAux : Nat → List Char → List (String × String)
  | 0, _ => []
  | _ + 1, [] => []
  | fuel + 1, c :: cs =>
    if isWordChar c then
      let rest2 := (cs.dropWhile isWordChar).dropWhile isPySpace
      if rest2.headD ' ' == '=' then
        let rest4 := rest2.tail.dropWhile isPySpace
        let v := rest4.takeWhile isValChar
        if v.isEmpty then findKVAux fuel cs
        else ((c :: cs.takeWhile isWordChar).asString, v.asString) ::
          findKVAux fuel (rest4.dropWhile isValChar)
      else findKVAux fuel cs
    else findKVAux fuel cs

/-- The deterministic `key=value` matches of the Correction Merger. -/
def findKV (s : String) : List (String × String) :=
  findKVAux (s.data.length + 1) s.data

/-- The boolean test applied to one catalogue descriptor by
`match_endpoint` (orchestrator.py lines 80-90): name with underscores
replaced by spaces, or route, as a substring of the lowered query, else
any lowered keyword as a substring. -/
def apiMatches (query : String) (api : Api) : Bool :=
  let name := replaceUnderscores (pyLower (api.name.getD ""))
  let route := pyLower (api.route.getD "")
  (pyIn name query || pyIn route query) ||
    (api.keywords.map pyLower).any (fun kw => pyIn kw query)

/-- `match_endpoint(user_query, api_specs)` (orchestrator.py lines 72-92):
deterministic first-match scan of the catalogue, no completion call (the
signature takes no oracle). -/
def match_endpoint (user_query : String) (api_specs : List Api) : Option Api :=
  let query := pyLower user_query
  api_specs.find? (apiMatches query)

/-- The Endpoint Matcher as worded by spec section 4.1: lowercase the
query; walk the catalogue in order; per descriptor test (a) name with
underscores replaced by spaces, or route, as a substring, then (b) any
keyword as a substring; the first descriptor passing (a) or (b) wins;
none if the walk ends. -/
def matcherSpec (queryText : String) (catalogue : List Api) : Option Api :=
  match catalogue with
  | [] => none
  | d :: rest =>
    let q := pyLower queryText
    if pyIn (replaceUnderscores (pyLower (d.name.getD ""))) q ||
        pyIn (pyLower (d.route.getD "")) q then some d
    else if (d.keywords.map pyLower).any (fun kw => pyIn kw q) then some d
    else matcherSpec queryText rest

/-- The dict comprehension of `extract_parameters_with_llm` (line 124):
`{k: v for k, v in parsed.items() if v and v.lower() != "null"}`.  A
truthy non-str value makes `v.lower()` raise inside the comprehension;
the surrounding `except` then returns the empty dict. -/
def extractItems (kvs : List (String × Json)) : List (String × Json) :=
  if kvs.any (fun kv => pyTruthy kv.2 && !isJStr kv.2) then []
  else kvs.filter (fun kv => pyTruthy kv.2 && pyLower ((fun j => match j with
    | Json.str s => s
    | _ => "") kv.2) != "null")

/-- `extract_parameters_with_llm(user_query, endpoint)` (lines 95-126).
Returns the extracted dict and the number of completion calls; `none`
models the `call_groq` transport exception escaping (line 121 is outside
the `try`). -/
def extract_parameters_with_llm (w : World) (user_query : String)
    (endpoint : Api) : Option (List (String × Json) × Nat) :=
  if endpoint.parameters.isEmpty then some ([], 0)
  else
    match w.extractOut with
    | .error _ => none
    | .ok t =>
      match w.parse (stripFences (pyStrip t)) with
      | .ok (Json.obj kvs) => some (extractItems kvs, 1)
      | .ok _ => some ([], 1)
      | .error _ => some ([], 1)

/-- `validate_parameters_with_llm(params, endpoint)` (lines 132-180).
Everything, the completion call included, sits inside the `try`, so every
failure mode yields the empty error dict (fail-open). -/
def validate_parameters_with_llm (w : World) (params : List (String × Json))
    (endpoint : Api) : List (String × Json) × Nat :=
  if endpoint.validation_rules.isEmpty then ([], 0)
  else
    match w.validateOut with
    | .error _ => ([], 1)
    | .ok t =>
      match w.parse (pyStrip (stripFences (pyStrip t))) with
      | .error _ => ([], 1)
      | .ok j =>
        match j with
        | Json.obj _ =>
          match jgetD j "validation_errors" (Json.obj []) with
          | Json.obj errs => (errs, 1)
          | _ => ([], 1)
        | _ => ([], 1)

/-- `find_missing_params(params, endpoint)` (lines 192-194): required
names absent from `params`, in declared order. -/
def find_missing_params (params : List (String × Json)) (endpoint : Api) :
    List String :=
  ((endpoint.parameters.filter (fun p => p.required)).map (fun p => p.name)).filter
    (fun r => !dictHas params r)

/-- `merge_user_fix_into_state(user_input, state, endpoint)` (lines
276-296), returning the new `state.params` and the completion call count.
`none` models the fallback `call_groq` (line 290, outside the `try`)
raising.  In the fallback, a result is applied only when the parse
succeeded, the value is a truthy dict and its `"param"` entry is one of
the declared parameter names; `parsed["value"]` (line 294) raises
`KeyError` when absent, swallowed by the `except`. -/
def merge_user_fix_into_state (w : World) (user_input : String)
    (params : List (String × Json)) (endpoint : Api) :
    Option (List (String × Json) × Nat) :=
  let expected_params := endpoint.parameters.map (fun p => p.name)
  let kvMatches := findKV user_input
  if !kvMatches.isEmpty then
    some (kvMatches.foldl (fun ps kv =>
      if expected_params.contains kv.1 then dictSet ps kv.1 (Json.str kv.2)
      else ps) params, 0)
  else
    match w.mergeOut with
    | .error _ => none
    | .ok t =>
      match w.parse t with
      | .error _ => some (params, 1)
      | .ok parsed =>
        match parsed with
        | Json.obj kvs =>
          match kvs.find? (fun kv => kv.1 == "param") with
          | some (_, Json.str p) =>
            if pyTruthy (Json.obj kvs) && expected_params.contains p then
              match kvs.find? (fun kv => kv.1 == "value") with
              | some kv => some (dictSet params p kv.2, 1)
              | none => some (params, 1)
            else some (params, 1)
          | _ => some (params, 1)
        | _ => some (params, 1)

/-- The reference list `all_names` that `check_name_in_db` (lines 207-219)
loads for a category: `portfolio_names` for `"portfolio"`,
`benchmark_names` for `"benchmark"`, empty for any other `name_type` and
for a missing document. -/
def referenceNames (w : World) (name_type : String) : List String :=
  match w.doc with
  | none => []
  | some d =>
    if name_type == "portfolio" then d.portfolio_names
    else if name_type == "benchmark" then d.benchmark_names
    else []

/-- The dict `{"exists": false, "matched": None, "closest": []}`. -/
def resolverNotFound : Json :=
  Json.obj [("exists", Json.bool false), ("matched", Json.null),
    ("closest", Json.arr [])]

/-- `check_name_in_db(name, name_type)` (lines 201-254), returning the
result dict and the completion call count.  The whole body sits in a
`try`, so a raising completion call or `json.loads` yields the hard
`{"error": str(e)}` dict (fail-closed); a non-dict parse gives the
`AttributeError` of `parsed.get` (line 245), also caught into an error
dict. -/
def check_name_in_db (w : World) (name : Json) (name_type : String) :
    Json × Nat :=
  if !w.mongoOk then (Json.obj [("error", Json.str "MongoDB connection failed")], 0)
  else
    let all_names := referenceNames w name_type
    if all_names.isEmpty then (resolverNotFound, 0)
    else
      match w.resolveOut name_type with
      | .error e => (Json.obj [("error", Json.str e)], 1)
      | .ok t =>
        match w.parse t with
        | .error e => (Json.obj [("error", Json.str e)], 1)
        | .ok parsed =>
          match parsed with
          | Json.obj _ =>
            let matched := jget parsed "matched"
            let closest := jgetD parsed "closest" (Json.arr [])
            if pyTruthy matched then
              (Json.obj [("exists", Json.bool true), ("matched", matched),
                ("closest", Json.arr [])], 1)
            else
              (Json.obj [("exists", Json.bool false), ("matched", Json.null),
                ("closest", closest)], 1)
          | _ =>
            (Json.obj [("error",
              Json.str "AttributeError: object has no attribute get")], 1)

/-- `call_api(endpoint, params)` (lines 256-274): the downstream HTTP
round trip, any exception or non-2xx captured as `{"error": str(e)}`. -/
def call_api (w : World) (endpoint : Api) (params : List (String × Json)) :
    Json :=
  match w.invokeOut with
  | .ok j => j
  | .error e => Json.obj [("error", Json.str e)]

/-- Python `"error" in result` (line 381) for the invoker result: key test
on a dict, membership on a list, substring on a str; on other values the
`in` raises `TypeError` (`none`). -/
def jsonHasErrorKey : Json → Option Bool
  | Json.obj kvs => some (kvs.any (fun kv => kv.1 == "error"))
  | Json.arr xs => some (xs.any (fun x => jsonBeq x (Json.str "error")))
  | Json.str s => some (pyIn "error" s)
  | _ => none

/-- `"\n".join(f"• {s}" for s in closest)` (line 364): defined for a list
and, as Python iteration would do, characterwise for a str; a truthy
non-iterable raises `TypeError` (`none`). -/
def closestLines : Json → Option String
  | Json.arr xs => some (joinSep "\n" (xs.map (fun x => "• " ++ pyStr x)))
  | Json.str s => some (joinSep "\n" (s.data.map (fun c => "• " ++ String.mk [c])))
  | _ => none

/-- The per-parameter lines of the validation failure message (line 341). -/
def errorLines (errs : List (String × Json)) : String :=
  joinSep "\n" (errs.map (fun kv => "• " ++ kv.1 ++ ": " ++ pyStr kv.2))

/-- Outcome of the `for param_name in [...]` entity-resolution loop
(lines 347-369): early return with a message, an uncaught exception, or
fall-through to the completeness check. -/
inductive LoopOut where
  | raised (s : ConversationState) : LoopOut
  | ret (msg : String) (s : ConversationState) : LoopOut
  | done (s : ConversationState) : LoopOut

/-- Append one turn to the history. -/
def appendH (s : ConversationState) (role content : String) : ConversationState :=
  { s with history := s.history ++ [⟨role, content⟩] }

/-- One iteration of the entity-resolution loop of `orchestrate_query`
(lines 347-369) for a single `param_name`: when the slot is present,
derive `name_type` by `param_name.split("_")[0] + "s"`, run
`check_name_in_db`, abort with an error message on a truthy `"error"`,
rewrite the slot to a differing truthy `"matched"`, abort with
suggestions or a plain not-found message on `exists` false; `.done`
means the loop proceeds to the next parameter. -/
def entity_step (w : World) (param_name : String) (s : ConversationState) :
    LoopOut :=
  if dictHas s.params param_name then
    let name_type := splitUnderscoreHead param_name ++ "s"
    let value := lookupJ s.params param_name
    let name_check := (check_name_in_db w value name_type).1
    if pyTruthy (jget name_check "error") then
      let msg := "❌ Error checking " ++ name_type ++ ": " ++
        pyStr (jget name_check "error")
      .ret msg (appendH s "assistant" msg)
    else if pyTruthy (jget name_check "exists") then
      let matched := jget name_check "matched"
      if pyTruthy matched && !jsonBeq matched value then
        .done { s with params := dictSet s.params param_name matched }
      else .done s
    else
      let closest := jgetD name_check "closest" (Json.arr [])
      let display_name := pyCapitalize name_type
      if pyTruthy closest then
        match closestLines closest with
        | none => .raised s
        | some suggestion_text =>
          let msg := display_name ++ " \x27" ++ pyStr value ++
            "\x27 not found. Closest matches:\n" ++ suggestion_text ++
            "\nPlease confirm or provide the correct name."
          .ret msg (appendH s "assistant" msg)
      else
        let msg := display_name ++ " \x27" ++ pyStr value ++
          "\x27 not found in database."
        .ret msg (appendH s "assistant" msg)
  else .done s

/-- The `for param_name in ["portfolio_name", "benchmark_name"]` loop
(lines 347-369): run `entity_step` on each name in order, stopping at the
first early return or exception. -/
def entity_loop (w : World) : List String → ConversationState → LoopOut
  | [], s => .done s
  | param_name :: rest, s =>
    match entity_step w param_name s with
    | .done s2 => entity_loop w rest s2
    | out => out

/-- Result of one engine turn: the returned message (`none` models an
uncaught exception escaping `orchestrate_query`), the conversation state
as mutated so far, and — as observable instrumentation — the invoker
outcome when the turn reached `call_api`. -/
structure TurnResult where
  msg? : Option String
  state : ConversationState
  invoked : Option (Except String Json)

/-- The part of `orchestrate_query` from line 327 on, once an endpoint is
fixed and `state.current_endpoint` is set: extract, merge corrections,
re-filter params to the declared names, validate, resolve entity names,
check completeness, invoke. -/
def turn_with_endpoint (w : World) (user_query : String) (endpoint : Api)
    (s2 : ConversationState) : TurnResult :=
  match extract_parameters_with_llm w user_query endpoint with
  | none => ⟨none, s2, none⟩
  | some (extracted, _) =>
    let s3 := { s2 with params := dictUpdate s2.params extracted }
    match merge_user_fix_into_state w user_query s3.params endpoint with
    | none => ⟨none, s3, none⟩
    | some (merged, _) =>
      let expected_params := endpoint.parameters.map (fun p => p.name)
      let filtered := merged.filter (fun kv => expected_params.contains kv.1)
      let s4 := { s3 with params := filtered }
      let validation_errors := (validate_parameters_with_llm w s4.params endpoint).1
      if !validation_errors.isEmpty then
        let msg := "Some parameters are invalid:\n" ++
          errorLines validation_errors ++ "\nPlease correct them."
        ⟨some msg, appendH s4 "assistant" msg, none⟩
      else
        match entity_loop w ["portfolio_name", "benchmark_name"] s4 with
        | .raised s5 => ⟨none, s5, none⟩
        | .ret msg s5 => ⟨some msg, s5, none⟩
        | .done s5 =>
          let missing := find_missing_params s5.params endpoint
          if !missing.isEmpty then
            let msg := "I still need the following parameters: " ++
              joinSep ", " missing ++ "."
            ⟨some msg, appendH s5 "assistant" msg, none⟩
          else
            let result := call_api w endpoint s5.params
            match jsonHasErrorKey result with
            | none => ⟨none, s5, some w.invokeOut⟩
            | some true =>
              let msg := "❌ API call failed: " ++ pyStr (jget result "error")
              ⟨some msg, appendH s5 "assistant" msg, some w.invokeOut⟩
            | some false =>
              match endpoint.name with
              | none => ⟨none, s5, some w.invokeOut⟩
              | some n =>
                let msg := "✅ " ++ n ++ " result:\n" ++ jsonDumps result
                ⟨some msg, appendH s5 "assistant" msg, some w.invokeOut⟩

/-- `orchestrate_query(user_query, state)` (lines 302-387): append the
user turn, match an endpoint (falling back to the conversation's current
endpoint), emit the clarification when neither exists, otherwise run the
slot-filling pipeline. -/
def orchestrate_query (w : World) (user_query : String)
    (state : ConversationState) : TurnResult :=
  let s1 := appendH state "user" user_query
  match (match match_endpoint user_query s1.api_specs with
         | some e => some e
         | none => s1.current_endpoint) with
  | none =>
    let msg := "❓ I couldn\x27t identify which API to call. Please rephrase your request."
    ⟨some msg, appendH s1 "assistant" msg, none⟩
  | some endpoint =>
    turn_with_endpoint w user_query endpoint
      { s1 with current_endpoint := some endpoint }

/-- The completion heuristic of `routes.process_query` (line 29):
`result.strip().startswith("✅") or "result" in result.lower()`. -/
def is_completed_heuristic (result : String) : Bool :=
  pyStartsWith (pyStrip result) "✅" || pyIn "result" (pyLower result)

/-- `process_query` (routes.py lines 10-44) for a request whose session
already holds `state`: run the turn, clear the session iff the heuristic
fires.  Returns the response message, the session entry afterwards, and
the `session_cleared` flag; `none` models the turn raising (HTTP 500,
session kept). -/
def process_query (w : World) (state : ConversationState) (query : String) :
    Option (String × Option ConversationState × Bool) :=
  let r := orchestrate_query w query state
  match r.msg? with
  | none => none
  | some msg =>
    let is_completed := is_completed_heuristic msg
    some (msg, if is_completed then none else some r.state, is_completed)

/-- A parameterless ping endpoint fixture. -/
def epPing : Api := { name := some "ping", route := some "/ping" }

/-- The sharpe-ratio endpoint fixture of the entity-resolution scenario. -/
def epSharpe : Api :=
  { name := some "sharpe_ratio", route := some "/sharpe",
    keywords := ["sharpe"],
    parameters := [{ name := "portfolio_name", required := true }] }

/-- A `json.loads` oracle for the entity scenario: completion text `"E"`
parses to the extracted portfolio name, everything else fails to parse. -/
def parseGrowth : String → Except String Json := fun s =>
  if s == "E" then .ok (Json.obj [("portfolio_name", Json.str "growth fund")])
  else .error "Expecting value"

/-- The conversation state carried by a loop outcome. -/
def loopState : LoopOut → ConversationState
  | .raised s => s
  | .ret _ s => s
  | .done s => s

/-- The key restriction the spec asserts for `ConversationState.params`:
without a current endpoint the slot dict is empty, and with one every key
is a declared parameter name of that endpoint. -/
def ParamsDeclared (s : ConversationState) : Prop :=
  (s.current_endpoint = none → s.params = []) ∧
  ∀ e, s.current_endpoint = some e →
    ∀ kv ∈ s.params, kv.1 ∈ e.parameters.map (fun p => p.name)

/-- A world in which the turn reaches invocation and the invoker fails
with an error text containing the word `result`. -/
def wInvokerError : World :=
  { parse := fun _ => Except.error "Expecting value",
    mergeOut := Except.ok "gibberish",
    invokeOut := Except.error "no results found" }

/-- A session whose catalogue holds only the ping endpoint. -/
def sPing : ConversationState := { api_specs := [epPing] }

/-- A `json.loads` oracle for the fence round trip: exactly the
fence-stripped text of the fenced completion output parses to
`{"start_date": "null"}`. -/
def parseNullRT : String → Except String Json := fun s =>
  if s == "\n\x7b\"start_date\": \"null\"\x7d\n" then
    Except.ok (Json.obj [("start_date", Json.str "null")])
  else Except.error "Expecting value"

/-- An endpoint declaring only `start_date`. -/
def epStartDate : Api := { parameters := [{ name := "start_date", required := true }] }

theorem dropWhile_len_le (p : Char → Bool) (l : List Char) :
    (l.dropWhile p).length ≤ l.length :=
  (List.dropWhile_sublist p).length_le

/-- Fuel adequacy: any fuel above the list length computes the same scan,
so `findKV`, which supplies `length + 1`, is fuel-independent. -/
theorem findKVAux_fuel : ∀ (fuel fuel' : Nat) (l : List Char),
    l.length < fuel → l.length < fuel' → findKVAux fuel l = findKVAux fuel' l := by
  intro fuel
  induction fuel with
  | zero => intro fuel' l h h'; omega
  | succ f ih =>
    intro fuel' l h h'
    match fuel', l with
    | 0, l => omega
    | f' + 1, [] => rfl
    | f' + 1, c :: cs =>
      have hcs : cs.length < f := by simp at h; omega
      have hcs' : cs.length < f' := by simp at h'; omega
      simp only [findKVAux]
      by_cases hw : isWordChar c
      · simp only [hw, if_true]
        by_cases heq :
            (((cs.dropWhile isWordChar).dropWhile isPySpace).headD ' ' == '=') = true
        · simp only [heq, if_true]
          by_cases hv :
              ((((cs.dropWhile isWordChar).dropWhile isPySpace).tail.dropWhile
                isPySpace).takeWhile isValChar).isEmpty = true
          · simp only [hv, if_true]
            exact ih f' cs hcs hcs'
          · simp only [hv, Bool.false_eq_true, if_false]
            have h2 : ((cs.dropWhile isWordChar).dropWhile isPySpace).length ≤ cs.length :=
              le_trans (dropWhile_len_le _ _) (dropWhile_len_le _ _)
            have h3 : ((cs.dropWhile isWordChar).dropWhile isPySpace).tail.length <
                cs.length + 1 := by
              have ht := List.length_tail ((cs.dropWhile isWordChar).dropWhile isPySpace)
              omega
            have h4 : ((((cs.dropWhile isWordChar).dropWhile isPySpace).tail.dropWhile
                isPySpace).dropWhile isValChar).length <
                cs.length + 1 :=
              lt_of_le_of_lt
                (le_trans (dropWhile_len_le _ _) (dropWhile_len_le _ _)) h3
            rw [ih f' _ (by omega) (by omega)]
        · simp only [heq, if_false]
          exact ih f' cs hcs hcs'
      · simp only [hw, if_false]
        exact ih f' cs hcs hcs'

theorem dictHas_exists {d : List (String × Json)} {k : String}
    (h : dictHas d k = true) : ∃ kv, kv ∈ d ∧ kv.1 = k := by
  unfold dictHas at h
  rcases List.any_eq_true.1 h with ⟨kv, hm, he⟩
  exact ⟨kv, hm, by simpa using he⟩

theorem mem_dictSet {d : List (String × Json)} {k : String} {v : Json}
    {kv : String × Json} (h : kv ∈ dictSet d k v) : kv.1 = k ∨ kv ∈ d := by
  unfold dictSet at h
  split at h
  · rcases List.mem_map.1 h with ⟨kv0, hm0, heq⟩
    by_cases hb : (kv0.1 == k) = true
    · left; rw [← heq]; simp [hb]
    · right; rw [← heq]; simpa [hb] using hm0
  · rcases List.mem_append.1 h with h1 | h2
    · right; exact h1
    · left; simp at h2; rw [h2]

theorem entity_step_state (w : World) (pn : String) (s : ConversationState) :
    (loopState (entity_step w pn s)).current_endpoint = s.current_endpoint ∧
    (loopState (entity_step w pn s)).api_specs = s.api_specs ∧
    ∀ Q : String → Prop, (∀ kv ∈ s.params, Q kv.1) →
      ∀ kv ∈ (loopState (entity_step w pn s)).params, Q kv.1 := by
  unfold entity_step
  by_cases h1 : dictHas s.params pn
  · simp only [h1, if_true]
    split
    · exact ⟨rfl, rfl, fun Q hQ => hQ⟩
    · split
      · split
        · refine ⟨rfl, rfl, ?_⟩
          intro Q hQ kv hkv
          rcases mem_dictSet hkv with h | h
          · rcases dictHas_exists h1 with ⟨kv0, hm, he⟩
            rw [h, ← he]
            exact hQ kv0 hm
          · exact hQ kv h
        · exact ⟨rfl, rfl, fun Q hQ => hQ⟩
      · split
        · split
          · exact ⟨rfl, rfl, fun Q hQ => hQ⟩
          · exact ⟨rfl, rfl, fun Q hQ => hQ⟩
        · exact ⟨rfl, rfl, fun Q hQ => hQ⟩
  · simp only [h1]
    exact ⟨rfl, rfl, fun Q hQ => hQ⟩

theorem entity_loop_state (w : World) : ∀ (pns : List String) (s : ConversationState),
    (loopState (entity_loop w pns s)).current_endpoint = s.current_endpoint ∧
    (loopState (entity_loop w pns s)).api_specs = s.api_specs ∧
    ∀ Q : String → Prop, (∀ kv ∈ s.params, Q kv.1) →
      ∀ kv ∈ (loopState (entity_loop w pns s)).params, Q kv.1 := by
  intro pns
  induction pns with
  | nil => exact fun s => ⟨rfl, rfl, fun Q hQ => hQ⟩
  | cons pn rest ih =>
    intro s
    have hstep := entity_step_state w pn s
    unfold entity_loop
    cases hout : entity_step w pn s with
    | raised s' =>
      rw [hout] at hstep
      exact hstep
    | ret m s' =>
      rw [hout] at hstep
      exact hstep
    | done s' =>
      rw [hout] at hstep
      have hrec := ih s'
      refine ⟨by rw [hrec.1]; exact hstep.1, by rw [hrec.2.1]; exact hstep.2.1, ?_⟩
      intro Q hQ
      exact hrec.2.2 Q (hstep.2.2 Q hQ)

theorem entity_loop_eq_state {w : World} {pns : List String}
    {s : ConversationState} {out : LoopOut} (h : entity_loop w pns s = out) :
    (loopState out).current_endpoint = s.current_endpoint ∧
    (loopState out).api_specs = s.api_specs ∧
    ∀ Q : String → Prop, (∀ kv ∈ s.params, Q kv.1) →
      ∀ kv ∈ (loopState out).params, Q kv.1 :=
  h ▸ entity_loop_state w pns s

theorem turn_state_shape (w : World) (q : String) (ep : Api)
    (s2 : ConversationState) :
    (turn_with_endpoint w q ep s2).state.current_endpoint = s2.current_endpoint ∧
    (turn_with_endpoint w q ep s2).state.api_specs = s2.api_specs := by
  unfold turn_with_endpoint
  dsimp only
  split
  · exact ⟨rfl, rfl⟩
  · split
    · exact ⟨rfl, rfl⟩
    · split
      · exact ⟨rfl, rfl⟩
      · split
        · rename_i s5 heq
          have hl := entity_loop_eq_state heq
          exact ⟨hl.1, hl.2.1⟩
        · rename_i m s5 heq
          have hl := entity_loop_eq_state heq
          exact ⟨hl.1, hl.2.1⟩
        · rename_i s5 heq
          have hl := entity_loop_eq_state heq
          split
          · exact ⟨hl.1, hl.2.1⟩
          · split
            · exact ⟨hl.1, hl.2.1⟩
            · exact ⟨hl.1, hl.2.1⟩
            · split
              · exact ⟨hl.1, hl.2.1⟩
              · exact ⟨hl.1, hl.2.1⟩

theorem turn_keys (w : World) (q : String) (ep : Api) (s2 : ConversationState) :
    (turn_with_endpoint w q ep s2).msg? = none ∨
    ∀ kv ∈ (turn_with_endpoint w q ep s2).state.params,
      kv.1 ∈ ep.parameters.map (fun p => p.name) := by
  unfold turn_with_endpoint
  dsimp only
  split
  · left; rfl
  · split
    · left; rfl
    · split
      · right
        intro kv hkv
        exact List.mem_of_elem_eq_true (List.mem_filter.1 hkv).2
      · split
        · left; rfl
        · rename_i m s5 heq
          have hl := entity_loop_eq_state heq
          right
          exact hl.2.2 _ (fun kv hkv =>
            List.mem_of_elem_eq_true (List.mem_filter.1 hkv).2)
        · rename_i s5 heq
          have hl := entity_loop_eq_state heq
          have hp : ∀ kv ∈ s5.params, kv.1 ∈ ep.parameters.map (fun p => p.name) :=
            hl.2.2 _ (fun kv hkv =>
              List.mem_of_elem_eq_true (List.mem_filter.1 hkv).2)
          split
          · right; exact hp
          · split
            · left; rfl
            · right; exact hp
            · split
              · left; rfl
              · right; exact hp

theorem turn_invoker_error (w : World) (q : String) (ep : Api)
    (s2 : ConversationState) (e : String) :
    (turn_with_endpoint w q ep s2).invoked = some (Except.error e) →
    (turn_with_endpoint w q ep s2).msg? = some ("❌ API call failed: " ++ e) := by
  unfold turn_with_endpoint
  dsimp only
  split
  · intro h; simp at h
  · split
    · intro h; simp at h
    · split
      · intro h; simp at h
      · split
        · intro h; simp at h
        · intro h; simp at h
        · split
          · intro h; simp at h
          · split
            · rename_i heq
              intro h
              injection h with h
              simp only [call_api, h] at heq
              simp [jsonHasErrorKey] at heq
            · rename_i heq
              intro h
              injection h with h
              simp [call_api, h, jget, jgetD, pyStr]
            · rename_i heq
              split
              · intro h
                injection h with h
                simp only [call_api, h] at heq
                simp [jsonHasErrorKey] at heq
              · intro h
                injection h with h
                simp only [call_api, h] at heq
                simp [jsonHasErrorKey] at heq

theorem match_endpoint_eq_matcherSpec (q : String) : ∀ apis : List Api,
    match_endpoint q apis = matcherSpec q apis := by
  intro apis
  induction apis with
  | nil => rfl
  | cons d rest ih =>
    unfold match_endpoint matcherSpec
    unfold match_endpoint at ih
    by_cases ha : (pyIn (replaceUnderscores (pyLower (d.name.getD ""))) (pyLower q) ||
        pyIn (pyLower (d.route.getD "")) (pyLower q)) = true
    · simp [List.find?, apiMatches, ha]
    · by_cases hb : ((d.keywords.map pyLower).any
          (fun kw => pyIn kw (pyLower q))) = true
      · simp [List.find?, apiMatches, ha, hb]
      · simp [List.find?, apiMatches, ha, hb]
        exact ih

theorem turn_paramsDeclared (w : World) (q : String) (e : Api)
    (s2 : ConversationState) (h2 : s2.current_endpoint = some e) :
    ∀ msg, (turn_with_endpoint w q e s2).msg? = some msg →
    ParamsDeclared (turn_with_endpoint w q e s2).state := by
  intro msg hmsg
  constructor
  · intro hnone
    rw [(turn_state_shape w q e s2).1, h2] at hnone
    exact Option.noConfusion hnone
  · intro e' he'
    rw [(turn_state_shape w q e s2).1, h2] at he'
    injection he' with he''
    subst he''
    rcases turn_keys w q e s2 with hn | hkeys
    · rw [hn] at hmsg
      exact Option.noConfusion hmsg
    · exact hkeys

/-- Claim C4: after every completed turn, every key of `state.params` is a
declared parameter name of the current endpoint — the union of extracted
and corrected parameters is re-filtered to the now-current endpoint's
declared set, so slots of an abandoned endpoint are dropped and the key
restriction is preserved across turn boundaries. -/
theorem c4_params_keys_invariant (w : World) (q : String)
    (s : ConversationState) (hInv : ParamsDeclared s) (msg : String)
    (hmsg : (orchestrate_query w q s).msg? = some msg) :
    ParamsDeclared (orchestrate_query w q s).state := by
  unfold orchestrate_query at hmsg ⊢
  dsimp only [appendH] at hmsg ⊢
  cases hm : match_endpoint q s.api_specs with
  | some e =>
    rw [hm] at hmsg
    dsimp only at hmsg ⊢
    exact turn_paramsDeclared w q e _ rfl msg hmsg
  | none =>
    rw [hm] at hmsg
    dsimp only at hmsg ⊢
    cases hc : s.current_endpoint with
    | some e =>
      rw [hc] at hmsg
      dsimp only at hmsg ⊢
      exact turn_paramsDeclared w q e _ rfl msg hmsg
    | none =>
      rw [hc] at hmsg
      dsimp only at hmsg ⊢
      refine ⟨fun _ => hInv.1 hc, ?_⟩
      intro e' he'
      exact Option.noConfusion he'

/-- Witness for C4 at a concrete turn: the empty session satisfies the
invariant, the clarification turn completes, and the invariant holds
afterwards. -/
theorem c4_params_keys_invariant_witness :
    ParamsDeclared (orchestrate_query {} "hello" {}).state :=
  c4_params_keys_invariant {} "hello" {}
    ⟨fun _ => rfl, fun _ he => Option.noConfusion he⟩
    "❓ I couldn\x27t identify which API to call. Please rephrase your request."
    rfl

/-- Claim C5: the Endpoint Matcher is a deterministic function of query
and catalogue (its signature takes no oracle, hence no completion-call is
possible): it equals the spec-worded first-match scan — lowercase the
query, walk descriptors in order, test name-with-underscores-as-spaces or
route as a substring, else any keyword — and when it returns none the
engine falls back to the existing `currentEndpoint`. -/
theorem c5_matcher_deterministic_with_fallback :
    (∀ (q : String) (apis : List Api), match_endpoint q apis = matcherSpec q apis) ∧
    (∀ (w : World) (q : String) (s : ConversationState) (e : Api),
      match_endpoint q s.api_specs = none → s.current_endpoint = some e →
      (orchestrate_query w q s).state.current_endpoint = some e) := by
  constructor
  · exact fun q => match_endpoint_eq_matcherSpec q
  · intro w q s e hm hc
    unfold orchestrate_query
    dsimp only [appendH]
    rw [hm]
    dsimp only
    rw [hc]
    dsimp only
    exact (turn_state_shape w q e _).1

/-- Witness for C5: a concrete matcher agreement and a concrete fallback
turn in which no descriptor matches but the prior endpoint is kept. -/
theorem c5_matcher_deterministic_with_fallback_witness :
    match_endpoint "compute sharpe" [epSharpe] = matcherSpec "compute sharpe" [epSharpe] ∧
    (orchestrate_query {} "hello"
      { api_specs := [], current_endpoint := some epPing }).state.current_endpoint
      = some epPing :=
  ⟨c5_matcher_deterministic_with_fallback.1 "compute sharpe" [epSharpe],
   c5_matcher_deterministic_with_fallback.2 {} "hello"
     { api_specs := [], current_endpoint := some epPing } epPing rfl rfl⟩

/-- Claim C2 as stated is false: on a no-match turn with no prior
endpoint the engine does return the clarification and leaves `params` and
`currentEndpoint` untouched, but `history` gains the assistant
clarification turn as well, not only the user's turn. -/
theorem c2_counterexample :
    (orchestrate_query {} "hello" {}).msg? =
      some "❓ I couldn\x27t identify which API to call. Please rephrase your request." ∧
    (orchestrate_query {} "hello" {}).state.params = [] ∧
    (orchestrate_query {} "hello" {}).state.current_endpoint = none ∧
    ¬ (orchestrate_query {} "hello" {}).state.history = [⟨"user", "hello"⟩] := by
  refine ⟨rfl, rfl, rfl, ?_⟩
  intro h
  have h2 : (orchestrate_query {} "hello" {}).state.history.length = 1 := by
    rw [h]
    rfl
  have h3 : (orchestrate_query {} "hello" {}).state.history.length = 2 := rfl
  rw [h3] at h2
  exact absurd h2 (by decide)

/-- Claim C2 amended: when the Matcher finds nothing and no prior
endpoint exists, the engine returns the clarification message and the
state is unchanged except that `history` gains the user's turn and the
assistant's clarification turn; `params` and `currentEndpoint` keep their
previous values. -/
theorem c2_no_match_clarification_state (w : World) (q : String)
    (s : ConversationState) (hm : match_endpoint q s.api_specs = none)
    (hc : s.current_endpoint = none) :
    orchestrate_query w q s =
      ⟨some "❓ I couldn\x27t identify which API to call. Please rephrase your request.",
       { s with history := s.history ++
         [⟨"user", q⟩,
          ⟨"assistant", "❓ I couldn\x27t identify which API to call. Please rephrase your request."⟩] },
       none⟩ := by
  unfold orchestrate_query
  dsimp only [appendH]
  rw [hm]
  dsimp only
  rw [hc]
  dsimp only
  rw [List.append_assoc]
  rfl

/-- Witness for the amended C2 at a concrete no-match turn. -/
theorem c2_no_match_clarification_state_witness :
    orchestrate_query {} "hello" {} =
      ⟨some "❓ I couldn\x27t identify which API to call. Please rephrase your request.",
       { history :=
         [⟨"user", "hello"⟩,
          ⟨"assistant", "❓ I couldn\x27t identify which API to call. Please rephrase your request."⟩] },
       none⟩ :=
  c2_no_match_clarification_state {} "hello" {} rfl rfl

/-- Claim C3 as stated is false: on this turn the invoker fails (the turn
reached invocation and `call_api` captured the error), yet
`session_cleared` is `true` and the session entry is discarded, because
the completion heuristic of routes.py line 29 sees the substring
`result` in the error text `no results found`. -/
theorem c3_counterexample :
    (orchestrate_query wInvokerError "ping" sPing).invoked
      = some (Except.error "no results found") ∧
    process_query wInvokerError sPing "ping"
      = some ("❌ API call failed: no results found", none, true) :=
  ⟨rfl, rfl⟩

/-- Claim C3 amended: when the turn reaches invocation and the invoker
returns an error, the user-facing message reports the error and
`orchestrate_query` itself never resets the conversation; but the session
entry is discarded iff the completion heuristic fires on the message
(`strip` then starts with ✅, or contains `result` case-insensitively) —
not iff invocation succeeded — so an error text containing `result`
clears the session. -/
theorem c3_invoker_error_heuristic_reset (w : World) (s : ConversationState)
    (q e : String)
    (hinv : (orchestrate_query w q s).invoked = some (Except.error e)) :
    (orchestrate_query w q s).msg? = some ("❌ API call failed: " ++ e) ∧
    process_query w s q =
      some ("❌ API call failed: " ++ e,
        if is_completed_heuristic ("❌ API call failed: " ++ e) then none
        else some (orchestrate_query w q s).state,
        is_completed_heuristic ("❌ API call failed: " ++ e)) := by
  have hmsg : (orchestrate_query w q s).msg? = some ("❌ API call failed: " ++ e) := by
    unfold orchestrate_query at hinv ⊢
    dsimp only [appendH] at hinv ⊢
    cases hm : match_endpoint q s.api_specs with
    | some ep =>
      rw [hm] at hinv
      dsimp only at hinv ⊢
      exact turn_invoker_error w q ep _ e hinv
    | none =>
      rw [hm] at hinv
      dsimp only at hinv ⊢
      cases hc : s.current_endpoint with
      | some ep =>
        rw [hc] at hinv
        dsimp only at hinv ⊢
        exact turn_invoker_error w q ep _ e hinv
      | none =>
        rw [hc] at hinv
        dsimp only at hinv
        exact Option.noConfusion hinv
  refine ⟨hmsg, ?_⟩
  unfold process_query
  dsimp only
  rw [hmsg]

/-- Witness for the amended C3 at the concrete invoker-failure turn. -/
theorem c3_invoker_error_heuristic_reset_witness :
    (orchestrate_query wInvokerError "ping" sPing).msg?
      = some ("❌ API call failed: " ++ "no results found") ∧
    process_query wInvokerError sPing "ping"
      = some ("❌ API call failed: " ++ "no results found",
        if is_completed_heuristic ("❌ API call failed: " ++ "no results found") then none
        else some (orchestrate_query wInvokerError "ping" sPing).state,
        is_completed_heuristic ("❌ API call failed: " ++ "no results found")) :=
  c3_invoker_error_heuristic_reset wInvokerError sPing "ping" "no results found" rfl

/-- Claim C1 is what the code intends but not what it does: the engine
derives the category by pluralization (`portfolio_name` → `portfolios`),
while `check_name_in_db` recognizes only the singular categories
`portfolio`/`benchmark` (its own inline comment reads `# portfolio or
benchmark`), so the resolver loads an empty reference list for every
engine call, returns `exists=false` with no suggestions without ever
consulting the completion capability, and the turn always aborts with a
not-found message: the canonical name `Growth Fund` is present in the
store yet `state.params` is never rewritten.  Both parts hold for every
resolver/invoker oracle outcome. -/
theorem c1_entity_category_mismatch :
    (∀ (g : String → Except String Json) (eo mo vo : Except String String)
        (rs : String → Except String String) (iv : Except String Json)
        (pns bns : List String) (name : Json),
      check_name_in_db ⟨g, eo, mo, vo, rs, iv, true, some ⟨pns, bns⟩⟩ name "portfolios"
        = (resolverNotFound, 0)) ∧
    (∀ (vo : Except String String) (rs : String → Except String String)
        (iv : Except String Json),
      orchestrate_query
        { parse := parseGrowth, extractOut := Except.ok "E", mergeOut := Except.ok "M",
          validateOut := vo, resolveOut := rs, invokeOut := iv,
          doc := some { portfolio_names := ["Growth Fund", "Income Fund"] } }
        "compute sharpe for growth fund" { api_specs := [epSharpe] }
        = ⟨some "Portfolios \x27growth fund\x27 not found in database.",
           { api_specs := [epSharpe], current_endpoint := some epSharpe,
             params := [("portfolio_name", Json.str "growth fund")],
             history := [⟨"user", "compute sharpe for growth fund"⟩,
               ⟨"assistant", "Portfolios \x27growth fund\x27 not found in database."⟩] },
           none⟩) := by
  constructor
  · intro g eo mo vo rs iv pns bns name
    rfl
  · intro vo rs iv
    rfl

theorem listStartsWith_nil (l : List Char) : listStartsWith l [] = true := by
  cases l <;> rfl

theorem pyIn_empty (h : String) : pyIn "" h = true := by
  unfold pyIn
  rw [listContainsSub.eq_def]
  rw [show ("" : String).data = [] from rfl, listStartsWith_nil]
  rfl

theorem find?_map_set (d : List (String × Json)) (k k' : String) (v : Json)
    (h : ¬ k' = k) :
    (d.map (fun kv => if kv.1 == k then (k, v) else kv)).find?
        (fun kv => kv.1 == k') =
      d.find? (fun kv => kv.1 == k') := by
  induction d with
  | nil => rfl
  | cons kv0 t ih =>
    by_cases hb : (kv0.1 == k) = true
    · have hk : kv0.1 = k := by simpa using hb
      have h1 : ((k, v).1 == k') = false := by
        simp
        intro hkk
        exact absurd hkk.symm h
      have h2 : (kv0.1 == k') = false := by
        rw [hk]
        simpa using fun hkk => absurd hkk.symm h
      simp only [List.map, List.find?, hb, if_true, h1, h2]
      exact ih
    · have hb' : (kv0.1 == k) = false := by simpa using hb
      simp only [List.map, List.find?, hb', if_false, Bool.false_eq_true]
      cases hc : (kv0.1 == k') with
      | true => rfl
      | false => exact ih

theorem find?_dictSet_ne (d : List (String × Json)) (k k' : String) (v : Json)
    (h : ¬ k' = k) :
    (dictSet d k v).find? (fun kv => kv.1 == k') =
      d.find? (fun kv => kv.1 == k') := by
  unfold dictSet
  split
  · exact find?_map_set d k k' v h
  · rw [List.find?_append]
    have h1 : List.find? (fun kv => kv.1 == k') [(k, v)] = none := by
      simp
      intro hkk
      exact absurd hkk.symm h
    rw [h1]
    cases d.find? (fun kv => kv.1 == k') <;> rfl

theorem lookupJ_applyKV (expected : List String) :
    ∀ (ms : List (String × String)) (ps : List (String × Json)) (k : String),
    ¬ k ∈ expected →
    lookupJ (ms.foldl (fun acc kv =>
      if expected.contains kv.1 then dictSet acc kv.1 (Json.str kv.2)
      else acc) ps) k = lookupJ ps k := by
  intro ms
  induction ms with
  | nil => intro ps k _; rfl
  | cons m rest ih =>
    intro ps k hk
    simp only [List.foldl]
    rw [ih _ k hk]
    by_cases hc : (expected.contains m.1) = true
    · simp only [hc, if_true]
      have hne : ¬ k = m.1 := fun he =>
        hk (he ▸ List.mem_of_elem_eq_true hc)
      unfold lookupJ
      rw [find?_dictSet_ne _ _ _ _ hne]
    · simp only [hc, Bool.false_eq_true, if_false]

/-- Claim C6: the Parameter Extractor strips Markdown fences before
parsing and never raises on a completion output: a parse failure or a
non-object response yields the empty mapping; from an object response
every entry whose value is `null` or the string `"null"`
(case-insensitive) is dropped, and in particular the fenced output
`{"start_date": "null"}` extracts to the empty mapping. -/
theorem c6_extractor_fail_open_null_drop :
    (∀ (q t e' : String) (p : PSpec) (ps : List PSpec) (nm rt : Option String)
        (kw : List String) (vr : List (String × String)),
      extract_parameters_with_llm
        { parse := fun _ => Except.error e', extractOut := Except.ok t } q
        ⟨nm, rt, kw, p :: ps, vr⟩ = some ([], 1)) ∧
    (∀ (q t : String) (j : Json), (∀ kvs, ¬ j = Json.obj kvs) →
      ∀ (p : PSpec) (ps : List PSpec) (nm rt : Option String)
        (kw : List String) (vr : List (String × String)),
      extract_parameters_with_llm
        { parse := fun _ => Except.ok j, extractOut := Except.ok t } q
        ⟨nm, rt, kw, p :: ps, vr⟩ = some ([], 1)) ∧
    (∀ (q t : String) (kvs : List (String × Json)) (p : PSpec) (ps : List PSpec)
        (nm rt : Option String) (kw : List String) (vr : List (String × String)),
      extract_parameters_with_llm
        { parse := fun _ => Except.ok (Json.obj kvs), extractOut := Except.ok t } q
        ⟨nm, rt, kw, p :: ps, vr⟩ = some (extractItems kvs, 1)) ∧
    (∀ (kvs : List (String × Json)) (k : String) (v : Json),
      (k, v) ∈ extractItems kvs →
        pyTruthy v = true ∧ ¬ v = Json.null ∧
        ∀ s', v = Json.str s' → ¬ pyLower s' = "null") ∧
    extract_parameters_with_llm
      { parse := parseNullRT,
        extractOut := Except.ok "```json\n\x7b\"start_date\": \"null\"\x7d\n```" }
      "what is the sharpe ratio of growth fund" epSharpe = some ([], 1) := by
  refine ⟨?_, ?_, ?_, ?_, ?_⟩
  · intro q t e' p ps nm rt kw vr
    rfl
  · intro q t j hj p ps nm rt kw vr
    cases j with
    | obj kvs => exact absurd rfl (hj kvs)
    | null => rfl
    | bool b => rfl
    | num n => rfl
    | str s => rfl
    | arr xs => rfl
  · intro q t kvs p ps nm rt kw vr
    rfl
  · intro kvs k v h
    unfold extractItems at h
    split at h
    · exact absurd h (List.not_mem_nil _)
    · have hc := (List.mem_filter.1 h).2
      dsimp only at hc
      rw [Bool.and_eq_true] at hc
      refine ⟨hc.1, ?_, ?_⟩
      · intro hv
        rw [hv] at hc
        exact absurd hc.1 (by decide)
      · intro s' hv hlow
        rw [hv] at hc
        have := hc.2
        simp only [bne_iff_ne] at this
        exact this hlow
  · rfl

/-- Witness for C6, applying the non-object and null-dropping parts at
concrete inputs. -/
theorem c6_extractor_fail_open_null_drop_witness :
    extract_parameters_with_llm
      { parse := fun _ => Except.ok (Json.arr []), extractOut := Except.ok "x" }
      "q" ⟨none, none, [], [⟨"portfolio_name", true⟩], []⟩ = some ([], 1) ∧
    (pyTruthy (Json.str "growth") = true ∧ ¬ (Json.str "growth") = Json.null ∧
      ∀ s', Json.str "growth" = Json.str s' → ¬ pyLower s' = "null") := by
  constructor
  · exact c6_extractor_fail_open_null_drop.2.1 "q" "x" (Json.arr [])
      (fun kvs h => Json.noConfusion h) ⟨"portfolio_name", true⟩ [] none none [] []
  · refine c6_extractor_fail_open_null_drop.2.2.2.1
      [("portfolio_name", Json.str "growth")] "portfolio_name" (Json.str "growth") ?_
    rw [show extractItems [("portfolio_name", Json.str "growth")]
      = [("portfolio_name", Json.str "growth")] from rfl]
    exact List.mem_singleton.2 rfl

/-- Claim C7: with at least one deterministic `key=value` token in the
input, the Correction Merger applies exactly the deterministic fold of
the tokens — declared keys are written, undeclared keys leave every other
slot untouched — with zero completion calls; `start_date=2023-01-01`
against an endpoint declaring `start_date` sets that slot with zero
calls.  Only with zero tokens does it make one fallback completion call,
whose parse failure is silently ignored and whose result is ignored
unless its `param` is a declared name. -/
theorem c7_correction_merger_deterministic_first :
    (∀ (w : World) (input : String) (ps : List (String × Json)) (ep : Api),
      ¬ findKV input = [] →
      merge_user_fix_into_state w input ps ep =
        some ((findKV input).foldl (fun acc kv =>
          if (ep.parameters.map (fun p => p.name)).contains kv.1 then
            dictSet acc kv.1 (Json.str kv.2) else acc) ps, 0)) ∧
    (∀ (input : String) (ps : List (String × Json)) (ep : Api) (k : String),
      ¬ k ∈ ep.parameters.map (fun p => p.name) →
      lookupJ ((findKV input).foldl (fun acc kv =>
        if (ep.parameters.map (fun p => p.name)).contains kv.1 then
          dictSet acc kv.1 (Json.str kv.2) else acc) ps) k = lookupJ ps k) ∧
    findKV "start_date=2023-01-01" = [("start_date", "2023-01-01")] ∧
    (∀ w : World, merge_user_fix_into_state w "start_date=2023-01-01" [] epStartDate
      = some ([("start_date", Json.str "2023-01-01")], 0)) ∧
    (∀ (input : String) (ps : List (String × Json)) (ep : Api) (t e : String),
      findKV input = [] →
      merge_user_fix_into_state
        { mergeOut := Except.ok t, parse := fun _ => Except.error e } input ps ep
        = some (ps, 1)) ∧
    (∀ (input : String) (ps : List (String × Json)) (ep : Api) (t p : String)
        (v : Json),
      findKV input = [] →
      (ep.parameters.map (fun pp => pp.name)).contains p = false →
      merge_user_fix_into_state
        { mergeOut := Except.ok t,
          parse := fun _ => Except.ok (Json.obj [("param", Json.str p), ("value", v)]) }
        input ps ep = some (ps, 1)) := by
  refine ⟨?_, ?_, rfl, ?_, ?_, ?_⟩
  · intro w input ps ep h
    unfold merge_user_fix_into_state
    dsimp only
    have he : (findKV input).isEmpty = false := by
      cases hk : findKV input with
      | nil => exact absurd hk h
      | cons a t => rfl
    rw [he]
    rfl
  · intro input ps ep k hk
    exact lookupJ_applyKV _ _ _ _ hk
  · intro w
    rfl
  · intro input ps ep t e h
    unfold merge_user_fix_into_state
    dsimp only
    rw [h]
    rfl
  · intro input ps ep t p v h hcon
    unfold merge_user_fix_into_state
    dsimp only
    rw [h]
    rw [show (List.find? (fun kv => kv.1 == "param")
      [("param", Json.str p), ("value", v)]) = some ("param", Json.str p) from rfl]
    dsimp only
    rw [hcon]
    rfl

/-- Witness for C7, applying each guarded part at a concrete input. -/
theorem c7_correction_merger_deterministic_first_witness :
    merge_user_fix_into_state {} "start_date=2023-01-01" [] epStartDate =
      some ((findKV "start_date=2023-01-01").foldl (fun acc kv =>
        if (epStartDate.parameters.map (fun p => p.name)).contains kv.1 then
          dictSet acc kv.1 (Json.str kv.2) else acc) [], 0) ∧
    lookupJ ((findKV "start_date=2023-01-01").foldl (fun acc kv =>
      if (epStartDate.parameters.map (fun p => p.name)).contains kv.1 then
        dictSet acc kv.1 (Json.str kv.2) else acc) [("x", Json.str "1")]) "x"
      = lookupJ [("x", Json.str "1")] "x" ∧
    merge_user_fix_into_state
      { mergeOut := Except.ok "t", parse := fun _ => Except.error "Expecting value" }
      "no corrections here" [] epStartDate = some ([], 1) ∧
    merge_user_fix_into_state
      { mergeOut := Except.ok "t",
        parse := fun _ => Except.ok (Json.obj
          [("param", Json.str "bogus"), ("value", Json.str "1")]) }
      "no corrections here" [] epStartDate = some ([], 1) :=
  ⟨c7_correction_merger_deterministic_first.1 {} "start_date=2023-01-01" []
      epStartDate (by decide),
   c7_correction_merger_deterministic_first.2.1 "start_date=2023-01-01"
      [("x", Json.str "1")] epStartDate "x" (by decide),
   c7_correction_merger_deterministic_first.2.2.2.2.1 "no corrections here" []
      epStartDate "t" "Expecting value" (by decide),
   c7_correction_merger_deterministic_first.2.2.2.2.2 "no corrections here" []
      epStartDate "t" "bogus" (Json.str "1") (by decide) (by decide)⟩

/-- Claim C8: with no declared validation rules the Parameter Validator
returns the empty error set with zero completion calls; with rules, a
raising completion call, a parse failure, a non-object response or a
non-object `validation_errors` entry all yield the empty error set
(fail-open) — the validator is a total function and never blocks the
turn. -/
theorem c8_validator_no_rules_fail_open :
    (∀ (w : World) (params : List (String × Json)) (nm rt : Option String)
        (kw : List String) (pr : List PSpec),
      validate_parameters_with_llm w params ⟨nm, rt, kw, pr, []⟩ = ([], 0)) ∧
    (∀ (params : List (String × Json)) (nm rt : Option String) (kw : List String)
        (pr : List PSpec) (r : String × String) (rs : List (String × String))
        (e : String),
      validate_parameters_with_llm { validateOut := Except.error e } params
        ⟨nm, rt, kw, pr, r :: rs⟩ = ([], 1)) ∧
    (∀ (params : List (String × Json)) (nm rt : Option String) (kw : List String)
        (pr : List PSpec) (r : String × String) (rs : List (String × String))
        (t e : String),
      validate_parameters_with_llm
        { validateOut := Except.ok t, parse := fun _ => Except.error e } params
        ⟨nm, rt, kw, pr, r :: rs⟩ = ([], 1)) ∧
    (∀ (params : List (String × Json)) (nm rt : Option String) (kw : List String)
        (pr : List PSpec) (r : String × String) (rs : List (String × String))
        (t : String) (xs : List Json),
      validate_parameters_with_llm
        { validateOut := Except.ok t, parse := fun _ => Except.ok (Json.arr xs) }
        params ⟨nm, rt, kw, pr, r :: rs⟩ = ([], 1)) ∧
    (∀ (params : List (String × Json)) (nm rt : Option String) (kw : List String)
        (pr : List PSpec) (r : String × String) (rs : List (String × String))
        (t s' : String),
      validate_parameters_with_llm
        { validateOut := Except.ok t,
          parse := fun _ => Except.ok (Json.obj [("validation_errors", Json.str s')]) }
        params ⟨nm, rt, kw, pr, r :: rs⟩ = ([], 1)) := by
  refine ⟨?_, ?_, ?_, ?_, ?_⟩
  · intro w params nm rt kw pr
    rfl
  · intro params nm rt kw pr r rs e
    rfl
  · intro params nm rt kw pr r rs t e
    rfl
  · intro params nm rt kw pr r rs t xs
    rfl
  · intro params nm rt kw pr r rs t s'
    rfl

/-- Claim C9: the Entity Resolver returns `exists=false, matched=none,
closest=[]` with zero completion calls on an empty reference list; any
raising completion call or `json.loads` failure yields a hard
`{"error": ...}` dict (fail-closed); and on an error result the engine
aborts the turn with an error message without reaching invocation
(`invoked = none`), for every resolver/invoker oracle outcome. -/
theorem c9_resolver_fail_closed :
    (∀ (g : String → Except String Json) (eo mo vo : Except String String)
        (rs : String → Except String String) (iv : Except String Json)
        (bns : List String) (name : Json),
      check_name_in_db ⟨g, eo, mo, vo, rs, iv, true, some ⟨[], bns⟩⟩ name "portfolio"
        = (resolverNotFound, 0)) ∧
    (∀ (e n : String) (ns bns : List String) (name : Json),
      check_name_in_db
        { resolveOut := fun _ => Except.error e, doc := some ⟨n :: ns, bns⟩ }
        name "portfolio" = (Json.obj [("error", Json.str e)], 1)) ∧
    (∀ (t e' n : String) (ns bns : List String) (name : Json),
      check_name_in_db
        { resolveOut := fun _ => Except.ok t, parse := fun _ => Except.error e',
          doc := some ⟨n :: ns, bns⟩ }
        name "portfolio" = (Json.obj [("error", Json.str e')], 1)) ∧
    (∀ (vo : Except String String) (rs : String → Except String String)
        (iv : Except String Json),
      orchestrate_query
        { parse := parseGrowth, extractOut := Except.ok "E", mergeOut := Except.ok "M",
          validateOut := vo, resolveOut := rs, invokeOut := iv, mongoOk := false }
        "compute sharpe for growth fund" { api_specs := [epSharpe] }
        = ⟨some "❌ Error checking portfolios: MongoDB connection failed",
           { api_specs := [epSharpe], current_endpoint := some epSharpe,
             params := [("portfolio_name", Json.str "growth fund")],
             history := [⟨"user", "compute sharpe for growth fund"⟩,
               ⟨"assistant", "❌ Error checking portfolios: MongoDB connection failed"⟩] },
           none⟩) := by
  refine ⟨?_, ?_, ?_, ?_⟩
  · intro g eo mo vo rs iv bns name
    rfl
  · intro e n ns bns name
    rfl
  · intro t e' n ns bns name
    rfl
  · intro vo rs iv
    rfl

/-- Claim C10: a catalogue descriptor with a missing or empty `name`
field (or a missing or empty `route`) passes the matcher's substring test
for every query, because the empty string is a Python-substring of
everything; placed before any other matching descriptor it therefore
captures all traffic. -/
theorem c10_blank_descriptor_captures_all (q : String) (pre : List Api)
    (bad : Api) (rest : List Api)
    (hbad : bad.name = none ∨ bad.name = some "" ∨
      bad.route = none ∨ bad.route = some "")
    (hpre : ∀ a ∈ pre, apiMatches (pyLower q) a = false) :
    match_endpoint q (pre ++ bad :: rest) = some bad := by
  have hmatch : apiMatches (pyLower q) bad = true := by
    unfold apiMatches
    rcases hbad with h | h | h | h
    · rw [h]
      rw [show replaceUnderscores (pyLower ((none : Option String).getD "")) = ""
        from rfl]
      simp [pyIn_empty]
    · rw [h]
      rw [show replaceUnderscores (pyLower ((some "" : Option String).getD "")) = ""
        from rfl]
      simp [pyIn_empty]
    · rw [h]
      rw [show pyLower ((none : Option String).getD "") = "" from rfl]
      simp [pyIn_empty]
    · rw [h]
      rw [show pyLower ((some "" : Option String).getD "") = "" from rfl]
      simp [pyIn_empty]
  revert hpre
  induction pre with
  | nil =>
    intro _
    unfold match_endpoint
    simp [List.find?, hmatch]
  | cons a t ih =>
    intro hpre
    have ha := hpre a (by simp)
    unfold match_endpoint at ih ⊢
    simp only [List.cons_append, List.find?, ha]
    exact ih (fun x hx => hpre x (List.mem_cons_of_mem a hx))

/-- Witness for C10: an all-defaults descriptor (absent name and route)
behind one non-matching descriptor captures an arbitrary query. -/
theorem c10_blank_descriptor_captures_all_witness :
    match_endpoint "anything" ([epSharpe] ++ ({} : Api) :: []) = some {} :=
  c10_blank_descriptor_captures_all "anything" [epSharpe] {} []
    (Or.inl rfl)
    (fun a ha => by
      rw [List.mem_singleton.1 ha]
      decide)
